import Mathlib

/-!
Shallow embedding of the norrona-alert core pipeline
(backend/src: differ, matcher, scraper price/discount helpers,
scraper cycle control, notifier registry), with theorems settling
the specification claims about it.

Conventions:
* Python `float` prices are modelled as `ℚ` (all arithmetic in the
  claims is exact decimal arithmetic).
* Python `dict` built by comprehension is modelled by a fold that keeps
  the last binding for a key; `dict.get` on a unique-key dict is
  `List.lookup`.
* Python `set` difference on size lists is modelled by `List.filter`
  (membership and emptiness agree with set semantics; multiplicity is
  never observed by the code).
-/

namespace NorronaAlert

/-- `Locale` enum from contracts/models.py. -/
inductive Locale where
  | EN_GB
  | NB_NO
deriving DecidableEq, Repr

/-- `ChangeType` enum from contracts/models.py. -/
inductive ChangeType where
  | NEW
  | RESTOCK
  | PRICE_DROP
deriving DecidableEq, Repr

/-- `Platform` enum from contracts/models.py. -/
inductive Platform where
  | WEB
  | IOS
deriving DecidableEq, Repr

/-- `ProductSnapshot` pydantic schema from contracts/models.py.
`scraped_at` is an abstract timestamp. -/
structure ProductSnapshot where
  name : String
  url : String
  price : ℚ
  original_price : ℚ
  discount_pct : ℚ
  available_sizes : List String
  category : String
  image_url : String
  locale : Locale
  scraped_at : Int
deriving DecidableEq, Repr

/-- `ProductChange` pydantic schema from contracts/models.py. -/
structure ProductChange where
  product : ProductSnapshot
  change_type : ChangeType
  previous_state : Option ProductSnapshot
  new_state : ProductSnapshot
deriving DecidableEq, Repr

/-- `UserPreferences` pydantic schema from contracts/models.py.
`size_map` is an association list with unique keys (a Python dict). -/
structure UserPreferences where
  region : Locale
  size_map : List (String × String)
  watchlist_terms : List String
  max_price : Option ℚ
deriving DecidableEq, Repr

/-- `AlertSchema` from contracts/models.py; `user_id` is an abstract id. -/
structure AlertSchema where
  user_id : Nat
  product_change : ProductChange
  matched_rule : String
deriving DecidableEq, Repr

/-! ## Differ (backend/src/differ/differ.py) -/

/-- The lookup `old_by_url.get(url)` where
`old_by_url = {p.url: p for p in old}`: a dict comprehension keeps the
last snapshot for each url, so the fold keeps the last match. -/
def lookupByUrl (old : List ProductSnapshot) (url : String) :
    Option ProductSnapshot :=
  old.foldl (fun acc p => if p.url = url then some p else acc) none

/-- Body of the `for new_product in new` loop of `ProductDiffer.diff`:
the changes appended for one product of `new`. -/
def changesFor (old : List ProductSnapshot) (np : ProductSnapshot) :
    List ProductChange :=
  match lookupByUrl old np.url with
  | none =>
      [{ product := np, change_type := ChangeType.NEW,
         previous_state := none, new_state := np }]
  | some op =>
      let restocked :=
        np.available_sizes.filter (fun s => s ∉ op.available_sizes)
      (if restocked ≠ [] then
        [{ product := np, change_type := ChangeType.RESTOCK,
           previous_state := some op, new_state := np }]
      else []) ++
      (if np.price < op.price then
        [{ product := np, change_type := ChangeType.PRICE_DROP,
           previous_state := some op, new_state := np }]
      else [])

/-- `ProductDiffer.diff`: iterate `new` in order, appending the changes
detected for each product. -/
def diff (old new : List ProductSnapshot) : List ProductChange :=
  new.flatMap (changesFor old)

/-- Every change emitted for product `np` carries `np` as its new state. -/
theorem new_state_of_mem_changesFor (old : List ProductSnapshot)
    (np : ProductSnapshot) (c : ProductChange) (hc : c ∈ changesFor old np) :
    c.new_state = np := by
  unfold changesFor at hc
  cases h : lookupByUrl old np.url with
  | none => rw [h] at hc; simp at hc; subst hc; rfl
  | some op =>
      rw [h] at hc
      simp only [ne_eq, List.mem_append] at hc
      rcases hc with hc | hc
      · by_cases hr : (np.available_sizes.filter
            (fun s => decide (s ∉ op.available_sizes))) = []
        · rw [if_neg (not_not_intro hr)] at hc; simp at hc
        · rw [if_pos hr] at hc; simp at hc; subst hc; rfl
      · by_cases hp : np.price < op.price
        · rw [if_pos hp] at hc; simp at hc; subst hc; rfl
        · rw [if_neg hp] at hc; simp at hc

/-- If no snapshot of `old` has url `url`, the dict lookup misses. -/
theorem lookupByUrl_eq_none (old : List ProductSnapshot) (url : String)
    (h : ∀ q ∈ old, q.url ≠ url) : lookupByUrl old url = none := by
  unfold lookupByUrl
  induction old with
  | nil => rfl
  | cons a as ih =>
      simp only [List.foldl_cons]
      have ha : a.url ≠ url := h a (by simp)
      rw [if_neg ha]
      exact ih (fun q hq => h q (by simp [hq]))

theorem changesFor_of_lookup_none (old : List ProductSnapshot)
    (np : ProductSnapshot) (h : lookupByUrl old np.url = none) :
    changesFor old np =
      [{ product := np, change_type := ChangeType.NEW,
         previous_state := none, new_state := np }] := by
  unfold changesFor; rw [h]

theorem filter_changesFor_ne (old : List ProductSnapshot)
    (np p : ProductSnapshot) (hne : np ≠ p) :
    (changesFor old np).filter (fun c => decide (c.new_state = p)) = [] := by
  apply List.filter_eq_nil_iff.mpr
  intro c hc
  have := new_state_of_mem_changesFor old np c hc
  simp [this, hne]

theorem filter_diff_not_mem (old : List ProductSnapshot)
    (new : List ProductSnapshot) (p : ProductSnapshot) (hp : p ∉ new) :
    (diff old new).filter (fun c => decide (c.new_state = p)) = [] := by
  induction new with
  | nil => rfl
  | cons a as ih =>
      have hne : a ≠ p := fun h => hp (h ▸ List.mem_cons_self a as)
      have hrec := ih (fun h => hp (List.mem_cons_of_mem a h))
      simp only [diff, List.flatMap_cons, List.filter_append] at hrec ⊢
      rw [filter_changesFor_ne old a p hne, hrec]
      rfl

/-- C1 (amended): in `ProductDiffer.diff`, product identity is the URL
alone. A product of `new` whose URL matches no snapshot of `old` yields
exactly one NEW change with `previous_state = none` (locales are not
compared), and a name edit alone (same URL, sizes and price) produces
no change at all. -/
theorem diff_identity_is_url :
    (∀ (old new : List ProductSnapshot) (p : ProductSnapshot),
      new.count p = 1 →
      (∀ q ∈ old, q.url ≠ p.url) →
      (diff old new).filter (fun c => decide (c.new_state = p)) =
        [{ product := p, change_type := ChangeType.NEW,
           previous_state := none, new_state := p }]) ∧
    (∀ (old : List ProductSnapshot) (p q : ProductSnapshot),
      lookupByUrl old p.url = some q →
      q.available_sizes = p.available_sizes →
      q.price = p.price →
      changesFor old p = []) := by
  constructor
  · intro old new p hcount hurl
    have hnone : lookupByUrl old p.url = none := lookupByUrl_eq_none old p.url hurl
    induction new with
    | nil => simp at hcount
    | cons a as ih =>
        by_cases ha : a = p
        · subst ha
          have hnotmem : a ∉ as := by
            rw [List.count_cons_self] at hcount
            have : as.count a = 0 := by omega
            exact List.count_eq_zero.mp this
          simp only [diff, List.flatMap_cons, List.filter_append]
          rw [changesFor_of_lookup_none old a hnone]
          have h2 : (diff old as).filter (fun c => decide (c.new_state = a)) = [] :=
            filter_diff_not_mem old as a hnotmem
          simp only [diff] at h2
          rw [h2]
          simp
        · have hcount' : as.count p = 1 := by
            rw [List.count_cons_of_ne (fun h => ha h.symm)] at hcount
            exact hcount
          simp only [diff, List.flatMap_cons, List.filter_append]
          rw [filter_changesFor_ne old a p ha]
          simpa [diff] using ih hcount'
  · intro old p q hq hsizes hprice
    unfold changesFor
    rw [hq]
    have h2 : ¬ p.price < q.price := by rw [hprice]; exact lt_irrefl _
    simp only [hsizes, ne_eq, h2, if_false, List.append_nil]
    rw [if_neg]
    simp [List.filter_eq_nil_iff]

/-- Sample snapshot builder used by concrete witnesses and
counterexamples. -/
def mkSnap (name url : String) (price : ℚ) (sizes : List String)
    (loc : Locale) : ProductSnapshot :=
  { name := name, url := url, price := price, original_price := price,
    discount_pct := 0, available_sizes := sizes, category := "Jackets",
    image_url := "", locale := loc, scraped_at := 0 }

/-- Witness for `diff_identity_is_url` at concrete inputs. -/
theorem diff_identity_is_url_witness :
    (diff [mkSnap "A" "u1" 10 ["M"] Locale.EN_GB]
        [mkSnap "B" "u2" 20 ["L"] Locale.EN_GB]).filter
        (fun c => decide (c.new_state = mkSnap "B" "u2" 20 ["L"] Locale.EN_GB)) =
      [{ product := mkSnap "B" "u2" 20 ["L"] Locale.EN_GB,
         change_type := ChangeType.NEW, previous_state := none,
         new_state := mkSnap "B" "u2" 20 ["L"] Locale.EN_GB }] ∧
    changesFor [mkSnap "A" "u1" 10 ["M"] Locale.EN_GB]
        (mkSnap "Renamed" "u1" 10 ["M"] Locale.EN_GB) = [] := by
  constructor
  · exact diff_identity_is_url.1 [mkSnap "A" "u1" 10 ["M"] Locale.EN_GB]
      [mkSnap "B" "u2" 20 ["L"] Locale.EN_GB]
      (mkSnap "B" "u2" 20 ["L"] Locale.EN_GB) (by decide) (by decide)
  · exact diff_identity_is_url.2 [mkSnap "A" "u1" 10 ["M"] Locale.EN_GB]
      (mkSnap "Renamed" "u1" 10 ["M"] Locale.EN_GB)
      (mkSnap "A" "u1" 10 ["M"] Locale.EN_GB) (by decide) rfl rfl

/-- C1 counterexample: the claim as stated is false. An old snapshot
with the same URL but a different locale does suppress the NEW change:
with `old` holding url `u` at locale nb-NO and `new` holding url `u`
at locale en-GB (same sizes, same price), `diff` emits nothing, though
no snapshot of `old` shares both URL and locale with the new product. -/
theorem diff_locale_counterexample :
    ¬ (∀ (old new : List ProductSnapshot) (p : ProductSnapshot),
        p ∈ new →
        (∀ q ∈ old, ¬ (q.url = p.url ∧ q.locale = p.locale)) →
        ∃ c ∈ diff old new, c.change_type = ChangeType.NEW) := by
  intro h
  obtain ⟨c, hc, _⟩ :=
    h [mkSnap "A" "u" 10 ["M"] Locale.NB_NO]
      [mkSnap "A" "u" 10 ["M"] Locale.EN_GB]
      (mkSnap "A" "u" 10 ["M"] Locale.EN_GB)
      (by decide) (by decide)
  have hnil : diff [mkSnap "A" "u" 10 ["M"] Locale.NB_NO]
      [mkSnap "A" "u" 10 ["M"] Locale.EN_GB] = [] := by decide
  rw [hnil] at hc
  simp at hc

/-- The RESTOCK record `diff` builds for new snapshot `p` over old
snapshot `q`. -/
def restockChange (p q : ProductSnapshot) : ProductChange :=
  { product := p, change_type := ChangeType.RESTOCK,
    previous_state := some q, new_state := p }

/-- The PRICE_DROP record `diff` builds for new snapshot `p` over old
snapshot `q`. -/
def priceDropChange (p q : ProductSnapshot) : ProductChange :=
  { product := p, change_type := ChangeType.PRICE_DROP,
    previous_state := some q, new_state := p }

theorem changesFor_of_lookup_some (old : List ProductSnapshot)
    (p q : ProductSnapshot) (h : lookupByUrl old p.url = some q) :
    changesFor old p =
      (if p.available_sizes.filter (fun s => decide (s ∉ q.available_sizes)) ≠ []
        then [restockChange p q] else []) ++
      (if p.price < q.price then [priceDropChange p q] else []) := by
  unfold changesFor
  rw [h]
  rfl

/-- C3: for a product `p` of `new` whose identity matches old snapshot
`q`, `diff` emits a RESTOCK exactly when the size-set difference
`p.sizes − q.sizes` is non-empty, a PRICE_DROP exactly when
`p.price < q.price`; with both a lower price and a strictly enlarged
size set it emits exactly the two records RESTOCK then PRICE_DROP, and
the output order follows the order of `new` (diff distributes over
append of `new`). -/
theorem diff_restock_and_price_drop :
    (∀ (old : List ProductSnapshot) (p q : ProductSnapshot),
      lookupByUrl old p.url = some q →
      ((∃ s ∈ p.available_sizes, s ∉ q.available_sizes) ↔
        ∃ c ∈ diff old [p], c.change_type = ChangeType.RESTOCK)) ∧
    (∀ (old : List ProductSnapshot) (p q : ProductSnapshot),
      lookupByUrl old p.url = some q →
      (p.price < q.price ↔
        ∃ c ∈ diff old [p], c.change_type = ChangeType.PRICE_DROP)) ∧
    (∀ (old : List ProductSnapshot) (p q : ProductSnapshot),
      lookupByUrl old p.url = some q →
      (∃ s ∈ p.available_sizes, s ∉ q.available_sizes) →
      p.price < q.price →
      diff old [p] = [restockChange p q, priceDropChange p q]) ∧
    (∀ (old n₁ n₂ : List ProductSnapshot),
      diff old (n₁ ++ n₂) = diff old n₁ ++ diff old n₂) := by
  have hsingle : ∀ (old : List ProductSnapshot) (p : ProductSnapshot),
      diff old [p] = changesFor old p := by
    intro old p; simp [diff]
  have hfilter : ∀ (p q : ProductSnapshot),
      (∃ s ∈ p.available_sizes, s ∉ q.available_sizes) ↔
        p.available_sizes.filter (fun s => decide (s ∉ q.available_sizes)) ≠ [] := by
    intro p q
    rw [ne_eq, List.filter_eq_nil_iff]
    push_neg
    simp
  refine ⟨?_, ?_, ?_, ?_⟩
  · intro old p q h
    rw [hsingle, changesFor_of_lookup_some old p q h, hfilter]
    by_cases hr : p.available_sizes.filter
        (fun s => decide (s ∉ q.available_sizes)) ≠ []
    · simp only [if_pos hr]
      constructor
      · intro _
        exact ⟨restockChange p q, by simp, rfl⟩
      · intro _; exact hr
    · simp only [if_neg hr]
      constructor
      · intro h'; exact absurd h' hr
      · rintro ⟨c, hc, hck⟩
        simp only [List.nil_append, List.mem_ite_nil_right] at hc
        rcases hc with ⟨_, hc⟩
        simp only [List.mem_singleton] at hc
        subst hc
        exact absurd hck (by simp [priceDropChange])
  · intro old p q h
    rw [hsingle, changesFor_of_lookup_some old p q h]
    by_cases hp : p.price < q.price
    · simp only [if_pos hp]
      constructor
      · intro _
        exact ⟨priceDropChange p q, by simp, rfl⟩
      · intro _; exact hp
    · simp only [if_neg hp]
      constructor
      · intro h'; exact absurd h' hp
      · rintro ⟨c, hc, hck⟩
        simp only [List.append_nil, List.mem_ite_nil_right] at hc
        rcases hc with ⟨_, hc⟩
        simp only [List.mem_singleton] at hc
        subst hc
        exact absurd hck (by simp [restockChange])
  · intro old p q h hs hp
    rw [hsingle, changesFor_of_lookup_some old p q h,
      if_pos ((hfilter p q).mp hs), if_pos hp]
    rfl
  · intro old n₁ n₂
    simp [diff]

/-- Witness for `diff_restock_and_price_drop` at concrete inputs: one
product with a lower price and an enlarged size set yields exactly the
RESTOCK and PRICE_DROP pair. -/
theorem diff_restock_and_price_drop_witness :
    diff [mkSnap "A" "u" 30 ["M"] Locale.EN_GB]
        [mkSnap "A" "u" 20 ["M", "XL"] Locale.EN_GB] =
      [restockChange (mkSnap "A" "u" 20 ["M", "XL"] Locale.EN_GB)
          (mkSnap "A" "u" 30 ["M"] Locale.EN_GB),
        priceDropChange (mkSnap "A" "u" 20 ["M", "XL"] Locale.EN_GB)
          (mkSnap "A" "u" 30 ["M"] Locale.EN_GB)] :=
  diff_restock_and_price_drop.2.2.1
    [mkSnap "A" "u" 30 ["M"] Locale.EN_GB]
    (mkSnap "A" "u" 20 ["M", "XL"] Locale.EN_GB)
    (mkSnap "A" "u" 30 ["M"] Locale.EN_GB)
    (by decide) (by decide) (by decide)

/-! ## Matcher (backend/src/matcher/matcher.py)

The fuzzy similarity `fuzz.token_set_ratio` comes from the external
`thefuzz` library; the matcher is embedded parametrically in a score
function `score : String → String → Nat` (a normalized 0–100 score). -/

/-- Python `str.lower()` over the character list (ASCII case mapping;
every size/price token in the repository is ASCII). -/
def pyLower (s : String) : String := ⟨s.data.map Char.toLower⟩

/-- Python `str.strip()`: drop whitespace from both ends. -/
def pyStrip (s : String) : String :=
  ⟨((s.data.dropWhile Char.isWhitespace).reverse.dropWhile
      Char.isWhitespace).reverse⟩

def FUZZY_MATCH_THRESHOLD : Nat := 80

/-- `SIZE_ALIASES` dict from matcher.py, in insertion order. -/
def SIZE_ALIASES : List (String × List String) := [
  ("xxs", ["xx-small", "extra extra small", "double extra small"]),
  ("xs", ["x-small", "extra small"]),
  ("s", ["small"]),
  ("m", ["medium", "med"]),
  ("l", ["large"]),
  ("xl", ["x-large", "extra large"]),
  ("xxl", ["xx-large", "extra extra large", "double extra large", "2xl"]),
  ("3xl", ["xxx-large", "xxxl", "triple extra large"])]

/-- `_normalise_size`: strip + lowercase, keep known short codes,
map aliases to their short code, otherwise return the cleaned form. -/
def _normalise_size (size : String) : String :=
  let cleaned := pyLower (pyStrip size)
  if (SIZE_ALIASES.lookup cleaned).isSome then cleaned
  else
    match SIZE_ALIASES.find? (fun kv => cleaned ∈ kv.2) with
    | some kv => kv.1
    | none => cleaned

/-- `_sizes_match`: membership of the normalised preferred size in the
set of normalised available sizes. -/
def _sizes_match (preferred_size : String) (available_sizes : List String) :
    Bool :=
  (available_sizes.map _normalise_size).contains (_normalise_size preferred_size)

/-- `_matches_watchlist`: first watchlist term whose similarity score
against the lower-cased product name reaches the threshold. -/
def _matches_watchlist (score : String → String → Nat)
    (product_name : String) (watchlist_terms : List String) : Option String :=
  watchlist_terms.find?
    (fun term => FUZZY_MATCH_THRESHOLD ≤ score (pyLower product_name) (pyLower term))

/-- The `restocked_sizes = new_sizes - old_sizes` computed inside
`_determine_rule` for a RESTOCK change (`old_sizes` is empty when
`previous_state` is absent). -/
def newlyRestocked (change : ProductChange) : List String :=
  let old_sizes :=
    match change.previous_state with
    | some prev => prev.available_sizes
    | none => []
  change.new_state.available_sizes.filter (fun s => s ∉ old_sizes)

/-- `PreferenceMatcher._determine_rule`. -/
def _determine_rule (change : ProductChange) (category : String)
    (preferences : UserPreferences) : Option String :=
  let product := change.new_state
  let preferred_size := preferences.size_map.lookup category
  let has_preferred_size : Bool :=
    match preferred_size with
    | some ps => _sizes_match ps product.available_sizes
    | none => false
  match change.change_type with
  | ChangeType.RESTOCK =>
      if has_preferred_size then
        match preferred_size with
        | some ps =>
            if _sizes_match ps (newlyRestocked change) then
              some "restock_exact_size"
            else some "restock"
        | none => some "restock"
      else some "restock"
  | ChangeType.PRICE_DROP =>
      if has_preferred_size then some "price_drop_in_size"
      else some "price_drop"
  | ChangeType.NEW =>
      if has_preferred_size then some "new_product_in_size"
      else some "new_product"

/-- `PreferenceMatcher.match` (named `matchChanges` here because `match`
is a Lean keyword). `user_id` is optional as in the source; when absent
a synthesized id `fresh_id` (the source's `uuid.uuid4()`) is used. -/
def matchChanges (score : String → String → Nat)
    (changes : List ProductChange) (preferences : UserPreferences)
    (user_id : Option Nat) (fresh_id : Nat) : List AlertSchema :=
  let effective_user_id := user_id.getD fresh_id
  changes.filterMap (fun change =>
    let product := change.new_state
    if (match preferences.max_price with
        | some mp => product.price > mp
        | none => false : Bool) then
      none
    else
      let matched_term :=
        _matches_watchlist score product.name preferences.watchlist_terms
      if matched_term = none ∧ preferences.watchlist_terms ≠ [] then
        none
      else
        match _determine_rule change product.category preferences with
        | some matched_rule =>
            some { user_id := effective_user_id, product_change := change,
                   matched_rule := matched_rule }
        | none => none)

theorem sizes_match_iff (preferred : String) (avail : List String) :
    _sizes_match preferred avail = true ↔
      ∃ s ∈ avail, _normalise_size s = _normalise_size preferred := by
  unfold _sizes_match
  rw [List.contains_iff_exists_mem_beq]
  constructor
  · rintro ⟨a, ha, hbeq⟩
    obtain ⟨s, hs, rfl⟩ := List.mem_map.mp ha
    exact ⟨s, hs, (beq_iff_eq.mp hbeq).symm⟩
  · rintro ⟨s, hs, heq⟩
    exact ⟨_normalise_size s, List.mem_map.mpr ⟨s, hs, rfl⟩,
      beq_iff_eq.mpr heq.symm⟩

/-- C8: size normalization induces an equivalence on size labels;
"M"/"Medium"/"MED" collapse to "m", "XL"/"Extra Large"/"X-Large" to
"xl", unrecognized tokens normalize to their trimmed lower-cased form,
and `_sizes_match` holds exactly when normal forms coincide. -/
theorem size_normalisation_equivalence :
    Equivalence (fun a b : String => _normalise_size a = _normalise_size b) ∧
    (_normalise_size "M" = "m" ∧ _normalise_size "Medium" = "m" ∧
      _normalise_size "MED" = "m" ∧ _normalise_size "med" = "m") ∧
    (_normalise_size "XL" = "xl" ∧ _normalise_size "Extra Large" = "xl" ∧
      _normalise_size "X-Large" = "xl") ∧
    (∀ s : String,
      SIZE_ALIASES.lookup (pyLower (pyStrip s)) = none →
      (∀ kv ∈ SIZE_ALIASES, pyLower (pyStrip s) ∉ kv.2) →
      _normalise_size s = pyLower (pyStrip s)) ∧
    (∀ (preferred : String) (avail : List String),
      _sizes_match preferred avail = true ↔
        ∃ s ∈ avail, _normalise_size s = _normalise_size preferred) := by
  refine ⟨⟨fun _ => rfl, Eq.symm, Eq.trans⟩, ?_, ?_, ?_, sizes_match_iff⟩
  · exact ⟨by decide, by decide, by decide, by decide⟩
  · exact ⟨by decide, by decide, by decide⟩
  · intro s hkey halias
    unfold _normalise_size
    rw [if_neg (by rw [hkey]; simp)]
    have hfind : SIZE_ALIASES.find?
        (fun kv => decide (pyLower (pyStrip s) ∈ kv.2)) = none :=
      List.find?_eq_none.mpr (fun kv hkv => by simpa using halias kv hkv)
    rw [hfind]

/-- Witness for `size_normalisation_equivalence`: an unrecognized token
normalizes to its trimmed lower-cased form. -/
theorem size_normalisation_equivalence_witness :
    _normalise_size " Foo Bar " = "foo bar" := by
  have h := size_normalisation_equivalence.2.2.2.1 " Foo Bar "
    (by decide) (by decide)
  simpa using h

theorem sizes_match_of_filter (ps : String) (l : List String)
    (pred : String → Bool) (h : _sizes_match ps (l.filter pred) = true) :
    _sizes_match ps l = true := by
  rw [sizes_match_iff] at h ⊢
  obtain ⟨s, hs, heq⟩ := h
  exact ⟨s, List.mem_of_mem_filter hs, heq⟩

/-- C4: a RESTOCK change classifies as `restock_exact_size` exactly when
the subscriber's preferred size for the product's category is among the
newly restocked sizes (compared after normalization); otherwise — the
preference exists but was not restocked, or no preference exists — it
classifies as `restock`. -/
theorem restock_exact_size_priority :
    ∀ (change : ProductChange) (preferences : UserPreferences),
      change.change_type = ChangeType.RESTOCK →
      (∀ ps, preferences.size_map.lookup change.new_state.category = some ps →
        (_sizes_match ps (newlyRestocked change) = true →
          _determine_rule change change.new_state.category preferences =
            some "restock_exact_size") ∧
        (_sizes_match ps (newlyRestocked change) = false →
          _determine_rule change change.new_state.category preferences =
            some "restock")) ∧
      (preferences.size_map.lookup change.new_state.category = none →
        _determine_rule change change.new_state.category preferences =
          some "restock") := by
  intro change preferences htype
  constructor
  · intro ps hps
    constructor
    · intro hmatch
      have havail : _sizes_match ps change.new_state.available_sizes = true := by
        have := hmatch
        unfold newlyRestocked at this
        exact sizes_match_of_filter ps change.new_state.available_sizes _ this
      unfold _determine_rule
      rw [htype, hps]
      simp only [havail, if_true, hmatch, if_pos]
    · intro hnot
      unfold _determine_rule
      rw [htype, hps]
      by_cases havail : _sizes_match ps change.new_state.available_sizes = true
      · simp only [havail, if_true, hnot]
        simp
      · simp only [Bool.not_eq_true] at havail
        simp only [havail]
        simp
  · intro hnone
    unfold _determine_rule
    rw [htype, hnone]
    simp

/-- Witness for `restock_exact_size_priority` at a concrete change:
restocking "Medium" and "XL" for a subscriber preferring "M" in the
category classifies as `restock_exact_size`. -/
theorem restock_exact_size_priority_witness :
    _determine_rule
        { product := mkSnap "A" "u" 10 ["S", "Medium", "XL"] Locale.EN_GB,
          change_type := ChangeType.RESTOCK,
          previous_state := some (mkSnap "A" "u" 10 ["S"] Locale.EN_GB),
          new_state := mkSnap "A" "u" 10 ["S", "Medium", "XL"] Locale.EN_GB }
        "Jackets"
        { region := Locale.EN_GB, size_map := [("Jackets", "M")],
          watchlist_terms := [], max_price := none } =
      some "restock_exact_size" := by
  have h := (restock_exact_size_priority
      { product := mkSnap "A" "u" 10 ["S", "Medium", "XL"] Locale.EN_GB,
        change_type := ChangeType.RESTOCK,
        previous_state := some (mkSnap "A" "u" 10 ["S"] Locale.EN_GB),
        new_state := mkSnap "A" "u" 10 ["S", "Medium", "XL"] Locale.EN_GB }
      { region := Locale.EN_GB, size_map := [("Jackets", "M")],
        watchlist_terms := [], max_price := none }
      rfl).1 "M" (by decide)
  exact h.1 (by decide)

/-- `_determine_rule` is total over the three change kinds: the trailing
`return None` of the source is unreachable. -/
theorem determine_rule_isSome (change : ProductChange) (category : String)
    (preferences : UserPreferences) :
    (_determine_rule change category preferences).isSome = true := by
  unfold _determine_rule
  cases change.change_type <;> dsimp only <;>
    repeat first
      | rfl
      | split

/-- The matched-rule label `_determine_rule` resolves for a change, as a
total function (it is `some` on every change kind). -/
def ruleFor (change : ProductChange) (preferences : UserPreferences) :
    String :=
  (_determine_rule change change.new_state.category preferences).getD "restock"

/-- The drop condition of the matcher's two gates, written from the
spec: the price ceiling is set and strictly exceeded, or the watchlist
is non-empty and no term reaches the similarity threshold. -/
def gateDrops (score : String → String → Nat) (change : ProductChange)
    (preferences : UserPreferences) : Bool :=
  (match preferences.max_price with
    | some mp => change.new_state.price > mp
    | none => false) ||
  (!preferences.watchlist_terms.isEmpty &&
    preferences.watchlist_terms.all
      (fun t => score (pyLower change.new_state.name) (pyLower t) <
        FUZZY_MATCH_THRESHOLD))

theorem matchChanges_cons (score : String → String → Nat)
    (c : ProductChange) (cs : List ProductChange)
    (preferences : UserPreferences) (user_id : Option Nat) (fresh_id : Nat) :
    matchChanges score (c :: cs) preferences user_id fresh_id =
      (if gateDrops score c preferences then []
       else [{ user_id := user_id.getD fresh_id, product_change := c,
               matched_rule := ruleFor c preferences }]) ++
      matchChanges score cs preferences user_id fresh_id := by
  unfold matchChanges
  rw [List.filterMap_cons]
  dsimp only
  by_cases hp : (match preferences.max_price with
      | some mp => decide (c.new_state.price > mp)
      | none => false) = true
  · rw [if_pos hp]
    have hg : gateDrops score c preferences = true := by
      unfold gateDrops
      rw [Bool.or_eq_true]
      left
      revert hp
      cases preferences.max_price <;> simp
    rw [hg]
    simp
  · rw [if_neg hp]
    by_cases hw : _matches_watchlist score c.new_state.name
        preferences.watchlist_terms = none ∧ preferences.watchlist_terms ≠ []
    · rw [if_pos hw]
      have hg : gateDrops score c preferences = true := by
        unfold gateDrops
        rw [Bool.or_eq_true]
        right
        rw [Bool.and_eq_true]
        obtain ⟨hfind, hne⟩ := hw
        refine ⟨by simpa [List.isEmpty_iff] using hne, ?_⟩
        have hforall : ∀ t ∈ preferences.watchlist_terms,
            score (pyLower c.new_state.name) (pyLower t) <
              FUZZY_MATCH_THRESHOLD := by
          simpa [_matches_watchlist] using hfind
        rw [List.all_eq_true]
        intro t ht
        simpa using hforall t ht
      rw [hg]
      simp
    · rw [if_neg hw]
      have hg : gateDrops score c preferences = false := by
        unfold gateDrops
        rw [Bool.or_eq_false_iff]
        constructor
        · revert hp
          cases preferences.max_price <;> simp
        · rw [Bool.and_eq_false_iff]
          by_cases hne : preferences.watchlist_terms = []
          · left; simp [hne]
          · right
            rcases Classical.not_and_iff_or_not_not.mp hw with hfind | hne2
            · obtain ⟨t, ht⟩ := Option.ne_none_iff_exists.mp hfind
              have hmem := List.mem_of_find?_eq_some ht.symm
              have hsc := List.find?_some ht.symm
              rw [List.all_eq_false]
              refine ⟨t, hmem, ?_⟩
              simpa using of_decide_eq_true hsc
            · exact absurd hne hne2
      rw [hg]
      obtain ⟨r, hr⟩ := Option.isSome_iff_exists.mp
        (determine_rule_isSome c c.new_state.category preferences)
      rw [hr]
      simp [ruleFor, hr]

/-- C9: the matcher drops a change exactly when a price ceiling is set
and strictly exceeded (a product priced at the ceiling passes) or the
watchlist is non-empty and no term reaches the threshold 80 against the
product name (an empty watchlist matches everything); each surviving
change yields exactly one alert. Stated for every similarity score
function (the source's `fuzz.token_set_ratio` is external). -/
theorem matcher_gate_characterisation :
    (∀ (score : String → String → Nat) (changes : List ProductChange)
        (preferences : UserPreferences) (user_id : Option Nat)
        (fresh_id : Nat),
      matchChanges score changes preferences user_id fresh_id =
        (changes.filter (fun c => ! gateDrops score c preferences)).map
          (fun c => { user_id := user_id.getD fresh_id, product_change := c,
                      matched_rule := ruleFor c preferences })) ∧
    (∀ (score : String → String → Nat) (c : ProductChange)
        (preferences : UserPreferences),
      gateDrops score c preferences = true ↔
        ((∃ mp, preferences.max_price = some mp ∧ mp < c.new_state.price) ∨
          (preferences.watchlist_terms ≠ [] ∧
            ∀ t ∈ preferences.watchlist_terms,
              score (pyLower c.new_state.name) (pyLower t) <
                FUZZY_MATCH_THRESHOLD))) := by
  constructor
  · intro score changes preferences user_id fresh_id
    induction changes with
    | nil => rfl
    | cons c cs ih =>
        rw [matchChanges_cons, ih, List.filter_cons]
        by_cases hg : gateDrops score c preferences = true
        · simp [hg]
        · simp only [Bool.not_eq_true] at hg
          simp [hg]
  · intro score c preferences
    unfold gateDrops
    rw [Bool.or_eq_true, Bool.and_eq_true]
    constructor
    · rintro (hmp | ⟨hne, hall⟩)
      · left
        cases hmax : preferences.max_price with
        | none => rw [hmax] at hmp; simp at hmp
        | some mp =>
            rw [hmax] at hmp
            exact ⟨mp, rfl, by simpa using hmp⟩
      · right
        refine ⟨by simpa [List.isEmpty_iff] using hne, ?_⟩
        intro t ht
        have := List.all_eq_true.mp hall t ht
        simpa using this
    · rintro (⟨mp, hmax, hlt⟩ | ⟨hne, hall⟩)
      · left
        rw [hmax]
        simpa using hlt
      · right
        refine ⟨by simpa [List.isEmpty_iff] using hne, ?_⟩
        rw [List.all_eq_true]
        intro t ht
        simpa using hall t ht

/-! ## Notifier registry (backend/src/notifier/registry.py)

Each channel's `send` is an external async call; a channel invocation
is modelled by its outcome `Except String Bool` — either the boolean
the channel returned, or an uncaught exception. The registry awaits
each created task and catches any exception at its boundary. -/

/-- `DeviceRegistration` row, as read at dispatch time. -/
structure Device where
  device_token : String
  platform : Platform
deriving DecidableEq, Repr

/-- `User` row with its devices, as read at dispatch time. -/
structure User where
  id : Nat
  email : String
  devices : List Device
deriving DecidableEq, Repr

/-- Outcomes of the three channel notifiers' `send` for one alert. -/
structure ChannelOutcomes where
  email : Except String Bool
  web_push : Except String Bool
  apns : Except String Bool

/-- The `try: results[channel] = await task / except: results[channel]
= False` boundary of `NotifierRegistry.notify`. -/
def settleTask (r : Except String Bool) : Bool :=
  match r with
  | Except.ok b => b
  | Except.error _ => false

/-- `NotifierRegistry.notify`: email is always tasked; web_push iff the
user has a web device; apns iff an ios device; each task's exception is
caught and recorded as `false`. The returned dict is the association
list in task-insertion order. -/
def notify (outcomes : ChannelOutcomes) (user : User) :
    List (String × Bool) :=
  let tasks : List (String × Except String Bool) :=
    [("email", outcomes.email)] ++
    (if user.devices.any (fun d => d.platform = Platform.WEB) then
      [("web_push", outcomes.web_push)] else []) ++
    (if user.devices.any (fun d => d.platform = Platform.IOS) then
      [("apns", outcomes.apns)] else [])
  tasks.map (fun ct => (ct.1, settleTask ct.2))

/-- C5: `notify` always returns an email entry; a web_push entry exactly
when the user has a web device and an apns entry exactly when they have
an ios device; each entry is the settled outcome of its own channel
alone (so one channel's exception is recorded as `false` there without
affecting the others), and an exception always settles to `false`. The
function is total: no exception escapes the registry. -/
theorem registry_notify_characterisation :
    ∀ (outcomes : ChannelOutcomes) (user : User),
      (notify outcomes user).lookup "email" =
        some (settleTask outcomes.email) ∧
      ((notify outcomes user).lookup "web_push" =
        if user.devices.any (fun d => d.platform = Platform.WEB) then
          some (settleTask outcomes.web_push)
        else none) ∧
      ((notify outcomes user).lookup "apns" =
        if user.devices.any (fun d => d.platform = Platform.IOS) then
          some (settleTask outcomes.apns)
        else none) ∧
      (∀ e : String, settleTask (Except.error e) = false) := by
  intro outcomes user
  unfold notify
  by_cases hweb : user.devices.any (fun d => d.platform = Platform.WEB) = true
  · by_cases hios : user.devices.any (fun d => d.platform = Platform.IOS) = true
    · refine ⟨?_, ?_, ?_, fun _ => rfl⟩ <;> simp [hweb, hios, List.lookup]
    · simp only [Bool.not_eq_true] at hios
      refine ⟨?_, ?_, ?_, fun _ => rfl⟩ <;> simp [hweb, hios, List.lookup]
  · simp only [Bool.not_eq_true] at hweb
    by_cases hios : user.devices.any (fun d => d.platform = Platform.IOS) = true
    · refine ⟨?_, ?_, ?_, fun _ => rfl⟩ <;> simp [hweb, hios, List.lookup]
    · simp only [Bool.not_eq_true] at hios
      refine ⟨?_, ?_, ?_, fun _ => rfl⟩ <;> simp [hweb, hios, List.lookup]

/-! ## Price parsing and discount (backend/src/scraper/scraper.py)

Python string primitives (`str.replace`, `str.split`) are embedded over
the character list; `replChars` carries a fuel argument (the string
length suffices: every step consumes at least one character) so that it
is structurally recursive and kernel-evaluable. -/

/-- One pass of Python `str.replace(pat, repl)`: leftmost,
non-overlapping. Empty patterns are never used by the source. -/
def replChars (pat repl : List Char) : Nat → List Char → List Char
  | _, [] => []
  | 0, s => s
  | Nat.succ fuel, c :: cs =>
      if pat ≠ [] ∧ pat.isPrefixOf (c :: cs) then
        repl ++ replChars pat repl fuel ((c :: cs).drop pat.length)
      else c :: replChars pat repl fuel cs

/-- Python `str.replace(pat, repl)` (replace all occurrences). -/
def pyReplace (s pat repl : String) : String :=
  ⟨replChars pat.data repl.data s.data.length s.data⟩

/-- Python `str.split(sep)` for a one-character separator. -/
def splitChars (sep : Char) : List Char → List (List Char)
  | [] => [[]]
  | c :: cs =>
      match splitChars sep cs with
      | [] => [[c]]
      | h :: t => if c = sep then [] :: h :: t else (c :: h) :: t

def pySplit (s : String) (sep : Char) : List String :=
  (splitChars sep s.data).map (fun cs => ⟨cs⟩)

/-- Decimal value of a digit string. -/
def digitsVal (cs : List Char) : Nat :=
  cs.foldl (fun a c => 10 * a + (c.toNat - 48)) 0

/-- Syntactic part of Python `float(text)` restricted to plain decimal
literals: optional sign, digits with at most one point and at least one
digit. Returns (negative?, integer digits, fraction digits). Exponents,
`inf`/`nan` and digit underscores are modelled as unparsable — the
cleaning pipeline never produces them. -/
def parseFloatParts (s : String) : Option (Bool × List Char × List Char) :=
  let (neg, body) : Bool × List Char :=
    match s.data with
    | '-' :: rest => (true, rest)
    | '+' :: rest => (false, rest)
    | cs => (false, cs)
  match splitChars '.' body with
  | [ip] =>
      if ip ≠ [] ∧ ip.all Char.isDigit then some (neg, ip, []) else none
  | [ip, fp] =>
      if (ip ≠ [] ∨ fp ≠ []) ∧ ip.all Char.isDigit ∧ fp.all Char.isDigit then
        some (neg, ip, fp)
      else none
  | _ => none

/-- Python `float(text)` on the strings the pipeline produces. -/
def parseFloat (s : String) : Option ℚ :=
  match parseFloatParts s with
  | some (neg, ip, fp) =>
      some ((if neg then -1 else 1) *
        ((digitsVal ip : ℚ) + (digitsVal fp : ℚ) / 10 ^ fp.length))
  | none => none

/-- The currency-symbol/word removal loop of `_parse_price`, followed by
the second strip. -/
def stripCurrency (text : String) : String :=
  let cleaned := pyStrip text
  let cleaned := pyReplace cleaned "£" ""
  let cleaned := pyReplace cleaned "$" ""
  let cleaned := pyReplace cleaned "€" ""
  let cleaned := pyReplace cleaned "kr" ""
  let cleaned := pyReplace cleaned "NOK" ""
  let cleaned := pyReplace cleaned ",-" ""
  pyStrip cleaned

/-- Separator disambiguation of `_parse_price`: both separators treat
"." as thousands and "," as decimal; a lone comma is decimal when the
split yields two parts with a two-character second part. -/
def sepDisamb (cleaned : String) : String :=
  if cleaned.data.contains ',' ∧ cleaned.data.contains '.' then
    pyReplace (pyReplace cleaned "." "") "," "."
  else if cleaned.data.contains ',' then
    let parts := pySplit cleaned ','
    if parts.length = 2 ∧ (parts[1]?.getD "").length = 2 then
      pyReplace cleaned "," "."
    else
      pyReplace cleaned "," ""
  else cleaned

/-- Cleaning pipeline of `_parse_price`, producing the string handed to
`float()`: currency strip, separator disambiguation, then space and
no-break-space removal. -/
def cleanPrice (text : String) : String :=
  pyReplace (pyReplace (sepDisamb (stripCurrency text)) " " "") "\u00A0" ""

/-- `_parse_price`: clean, then `float()`, `ValueError` yields 0.0. -/
def _parse_price (text : String) : ℚ :=
  match parseFloat (cleanPrice text) with
  | some v => v
  | none => 0

/-- The characters after the separator: drop up to and including the
first occurrence of `sep`. -/
def afterSep (sep : Char) (cs : List Char) : List Char :=
  (cs.dropWhile (fun c => c ≠ sep)).drop 1

/-- Comma-as-decimal test as the claim words it: the value holds a
single comma and exactly two digits follow it. -/
def commaDecimalClaim (cleaned : String) : Bool :=
  cleaned.data.count ',' = 1 &&
  ((afterSep ',' cleaned.data).length = 2 &&
    (afterSep ',' cleaned.data).all Char.isDigit)

/-- Comma-as-decimal test amended to the code's actual rule: a single
comma with exactly two characters (digits or not) after it. -/
def commaDecimalAmended (cleaned : String) : Bool :=
  cleaned.data.count ',' = 1 && (afterSep ',' cleaned.data).length = 2

/-- Separator disambiguation with the comma-as-decimal rule as the spec
words it (parameterised over that rule). -/
def specSepDisamb (rule : String → Bool) (cleaned : String) : String :=
  if cleaned.data.contains ',' ∧ cleaned.data.contains '.' then
    pyReplace (pyReplace cleaned "." "") "," "."
  else if cleaned.data.contains ',' then
    (if rule cleaned then pyReplace cleaned "," "."
     else pyReplace cleaned "," "")
  else cleaned

/-- The cleaning pipeline with the spec-worded comma rule (currency
stripping, the both-separators rule and space removal are as the spec
states them, matching the code). -/
def specCleanPrice (rule : String → Bool) (text : String) : String :=
  pyReplace (pyReplace (specSepDisamb rule (stripCurrency text)) " " "")
    "\u00A0" ""

/-- Price parsing exactly as the claim states it ("two digits follow
the comma"). -/
def claimParsePrice (text : String) : ℚ :=
  match parseFloat (specCleanPrice commaDecimalClaim text) with
  | some v => v
  | none => 0

/-- Price parsing with the amended comma rule ("two characters follow
the comma"). -/
def amendedParsePrice (text : String) : ℚ :=
  match parseFloat (specCleanPrice commaDecimalAmended text) with
  | some v => v
  | none => 0

theorem splitChars_ne_nil (sep : Char) (cs : List Char) :
    splitChars sep cs ≠ [] := by
  induction cs with
  | nil => simp [splitChars]
  | cons c cs ih =>
      unfold splitChars
      cases h : splitChars sep cs with
      | nil => exact absurd h ih
      | cons hd tl => by_cases hc : c = sep <;> simp [hc]

theorem splitChars_cons_eq (sep c : Char) (cs hd : List Char)
    (tl : List (List Char)) (heq : splitChars sep cs = hd :: tl) :
    splitChars sep (c :: cs) =
      if c = sep then [] :: hd :: tl else (c :: hd) :: tl := by
  unfold splitChars
  rw [heq]

theorem splitChars_length (sep : Char) (cs : List Char) :
    (splitChars sep cs).length = cs.count sep + 1 := by
  induction cs with
  | nil => simp [splitChars]
  | cons c cs ih =>
      obtain ⟨hd, tl, heq⟩ := List.exists_cons_of_ne_nil (splitChars_ne_nil sep cs)
      rw [splitChars_cons_eq sep c cs hd tl heq]
      rw [heq] at ih
      by_cases hc : c = sep
      · subst hc
        rw [if_pos rfl, List.count_cons_self]
        simp only [List.length_cons] at ih ⊢
        omega
      · rw [if_neg hc, List.count_cons_of_ne (Ne.symm hc)]
        simp only [List.length_cons] at ih ⊢
        omega

theorem splitChars_of_count_zero (sep : Char) (cs : List Char)
    (h : cs.count sep = 0) : splitChars sep cs = [cs] := by
  induction cs with
  | nil => rfl
  | cons c cs ih =>
      have hc : c ≠ sep := by
        intro hcs
        subst hcs
        rw [List.count_cons_self] at h
        omega
      have h0 : cs.count sep = 0 := by
        rw [List.count_cons_of_ne (Ne.symm hc)] at h
        exact h
      rw [splitChars_cons_eq sep c cs cs [] (ih h0), if_neg hc]

theorem splitChars_get_one (sep : Char) (cs : List Char)
    (h : cs.count sep = 1) :
    (splitChars sep cs)[1]? = some (afterSep sep cs) := by
  induction cs with
  | nil => simp at h
  | cons c cs ih =>
      by_cases hc : c = sep
      · subst hc
        rw [List.count_cons_self] at h
        have h0 : cs.count c = 0 := by omega
        rw [splitChars_cons_eq c c cs cs [] (splitChars_of_count_zero c cs h0),
          if_pos rfl]
        have hdrop : afterSep c (c :: cs) = cs := by
          unfold afterSep
          rw [List.dropWhile_cons_of_neg (by simp)]
          rfl
        rw [hdrop]
        rfl
      · rw [List.count_cons_of_ne (Ne.symm hc)] at h
        obtain ⟨hd, tl, heq⟩ :=
          List.exists_cons_of_ne_nil (splitChars_ne_nil sep cs)
        rw [splitChars_cons_eq sep c cs hd tl heq, if_neg hc]
        have hrec := ih h
        rw [heq] at hrec
        have hdrop : afterSep sep (c :: cs) = afterSep sep cs := by
          unfold afterSep
          rw [List.dropWhile_cons_of_pos (by simpa using hc)]
        rw [hdrop]
        simpa using hrec

theorem sepDisamb_eq (cleaned : String) :
    sepDisamb cleaned = specSepDisamb commaDecimalAmended cleaned := by
  unfold sepDisamb specSepDisamb
  have hiff : ((pySplit cleaned ',').length = 2 ∧
        ((pySplit cleaned ',')[1]?.getD "").length = 2) ↔
      commaDecimalAmended cleaned = true := by
    unfold commaDecimalAmended
    rw [Bool.and_eq_true]
    have hlen : (pySplit cleaned ',').length =
        cleaned.data.count ',' + 1 := by
      simp [pySplit, splitChars_length]
    constructor
    · rintro ⟨ha, hb⟩
      have hcount : cleaned.data.count ',' = 1 := by omega
      refine ⟨by simpa using hcount, ?_⟩
      have hget := splitChars_get_one ',' cleaned.data hcount
      have hone : (pySplit cleaned ',')[1]? =
          some ⟨afterSep ',' cleaned.data⟩ := by
        simp [pySplit, hget]
      rw [hone] at hb
      simpa [String.length] using hb
    · rintro ⟨ha, hb⟩
      have hcount : cleaned.data.count ',' = 1 := by simpa using ha
      have hget := splitChars_get_one ',' cleaned.data hcount
      refine ⟨by omega, ?_⟩
      have hone : (pySplit cleaned ',')[1]? =
          some ⟨afterSep ',' cleaned.data⟩ := by
        simp [pySplit, hget]
      rw [hone]
      simpa [String.length] using hb
  exact if_congr Iff.rfl rfl (if_congr Iff.rfl (if_congr hiff rfl rfl) rfl)

theorem cleanPrice_eq_specCleanPrice (text : String) :
    cleanPrice text = specCleanPrice commaDecimalAmended text := by
  unfold cleanPrice specCleanPrice
  rw [sepDisamb_eq]

/-- C6 counterexample: the claim's "two digits follow the comma" rule
is not the code's rule, which tests two *characters*. On "1, 5" the
code treats the comma as a decimal point (the two characters after it
are " 5") and parses 1.5, while the claim's rule makes it a thousands
separator and yields 15. -/
theorem parse_price_two_digits_counterexample :
    _parse_price "1, 5" ≠ claimParsePrice "1, 5" ∧
    _parse_price "1, 5" = 3 / 2 ∧ claimParsePrice "1, 5" = 15 := by
  have hcode : cleanPrice "1, 5" = "1.5" := by decide
  have hclaim : specCleanPrice commaDecimalClaim "1, 5" = "15" := by decide
  have hv1 : _parse_price "1, 5" = 3 / 2 := by
    unfold _parse_price
    rw [hcode]
    have hp : parseFloatParts "1.5" = some (false, ['1'], ['5']) := by decide
    unfold parseFloat
    rw [hp]
    have d1 : digitsVal ['1'] = 1 := by decide
    have d5 : digitsVal ['5'] = 5 := by decide
    simp [d1, d5]
    norm_num
  have hv2 : claimParsePrice "1, 5" = 15 := by
    unfold claimParsePrice
    rw [hclaim]
    have hp : parseFloatParts "15" = some (false, ['1', '5'], []) := by decide
    unfold parseFloat
    rw [hp]
    have d15 : digitsVal ['1', '5'] = 15 := by decide
    have d0 : digitsVal [] = 0 := rfl
    simp [d15, d0]
  refine ⟨?_, hv1, hv2⟩
  rw [hv1, hv2]
  norm_num

/-- C6 (amended): `_parse_price` follows the deterministic separator
rule with the comma-as-decimal condition being "exactly two characters
follow the single comma" (not "two digits"): currency symbols and words
are stripped, both separators present treats "." as thousands and ","
as decimal, and unparsable text yields 0.0; in particular "£280.00" →
280, "kr 3 499,-" → 3499, "1.299,00" → 1299, "N/A" → 0. -/
theorem parse_price_separator_rule :
    (∀ text : String, _parse_price text = amendedParsePrice text) ∧
    _parse_price "£280.00" = 280 ∧
    _parse_price "kr 3 499,-" = 3499 ∧
    _parse_price "1.299,00" = 1299 ∧
    _parse_price "N/A" = 0 ∧
    (∀ text : String, parseFloat (cleanPrice text) = none →
      _parse_price text = 0) := by
  refine ⟨?_, ?_, ?_, ?_, ?_, ?_⟩
  · intro text
    unfold _parse_price amendedParsePrice
    rw [cleanPrice_eq_specCleanPrice]
  · have hc : cleanPrice "£280.00" = "280.00" := by decide
    have hp : parseFloatParts "280.00" = some (false, ['2', '8', '0'], ['0', '0']) := by
      decide
    unfold _parse_price parseFloat
    rw [hc, hp]
    have d1 : digitsVal ['2', '8', '0'] = 280 := by decide
    have d2 : digitsVal ['0', '0'] = 0 := by decide
    simp [d1, d2]
  · have hc : cleanPrice "kr 3 499,-" = "3499" := by decide
    have hp : parseFloatParts "3499" = some (false, ['3', '4', '9', '9'], []) := by
      decide
    unfold _parse_price parseFloat
    rw [hc, hp]
    have d1 : digitsVal ['3', '4', '9', '9'] = 3499 := by decide
    have d0 : digitsVal [] = 0 := rfl
    simp [d1, d0]
  · have hc : cleanPrice "1.299,00" = "1299.00" := by decide
    have hp : parseFloatParts "1299.00" =
        some (false, ['1', '2', '9', '9'], ['0', '0']) := by decide
    unfold _parse_price parseFloat
    rw [hc, hp]
    have d1 : digitsVal ['1', '2', '9', '9'] = 1299 := by decide
    have d2 : digitsVal ['0', '0'] = 0 := by decide
    simp [d1, d2]
  · have hc : cleanPrice "N/A" = "N/A" := by decide
    have hp : parseFloatParts "N/A" = none := by decide
    unfold _parse_price parseFloat
    rw [hc, hp]
  · intro text h
    unfold _parse_price
    rw [h]

/-- Witness for `parse_price_separator_rule`: the unparsable-input
conjunct applied at "N/A". -/
theorem parse_price_separator_rule_witness :
    parseFloat (cleanPrice "N/A") = none ∧ _parse_price "N/A" = 0 := by
  have hc : cleanPrice "N/A" = "N/A" := by decide
  have hp : parseFloatParts "N/A" = none := by decide
  have hnone : parseFloat (cleanPrice "N/A") = none := by
    unfold parseFloat
    rw [hc, hp]
  exact ⟨hnone, parse_price_separator_rule.2.2.2.2.2 "N/A" hnone⟩

/-- Round to the nearest integer, ties to even (Python `round`'s
rounding mode). -/
def roundHalfToEven (q : ℚ) : ℤ :=
  let n := ⌊q⌋
  let f := q - n
  if f < 1 / 2 then n
  else if 1 / 2 < f then n + 1
  else if Even n then n else n + 1

/-- Python `round(x, 1)`: round at one decimal place. -/
def pyRound1 (q : ℚ) : ℚ := (roundHalfToEven (10 * q) : ℚ) / 10

/-- `_compute_discount_pct` from scraper.py. -/
def _compute_discount_pct (original current : ℚ) : ℚ :=
  if original ≤ 0 then 0
  else pyRound1 (max (((original - current) / original) * 100) 0)

theorem roundHalfToEven_nonneg (q : ℚ) (h : 0 ≤ q) :
    0 ≤ roundHalfToEven q := by
  have hn : 0 ≤ ⌊q⌋ := Int.floor_nonneg.mpr h
  unfold roundHalfToEven
  dsimp only
  split
  · exact hn
  · split
    · omega
    · split
      · exact hn
      · omega

/-- C7: the discount percentage is `max(0, (original − current) /
original × 100)` rounded to one decimal place; any original ≤ 0 yields
0; the result is never negative; `_compute_discount_pct 400 280 = 30`
and a price increase `_compute_discount_pct 100 150 = 0`. -/
theorem discount_pct_formula :
    (∀ original current : ℚ, original ≤ 0 →
      _compute_discount_pct original current = 0) ∧
    (∀ original current : ℚ, 0 < original →
      _compute_discount_pct original current =
        pyRound1 (max (((original - current) / original) * 100) 0)) ∧
    (∀ original current : ℚ, 0 ≤ _compute_discount_pct original current) ∧
    _compute_discount_pct 400 280 = 30 ∧
    _compute_discount_pct 100 150 = 0 := by
  have hr0 : roundHalfToEven 0 = 0 := by
    unfold roundHalfToEven
    norm_num
  have hr300 : roundHalfToEven 300 = 300 := by
    unfold roundHalfToEven
    norm_num
  refine ⟨?_, ?_, ?_, ?_, ?_⟩
  · intro original current h
    unfold _compute_discount_pct
    rw [if_pos h]
  · intro original current h
    unfold _compute_discount_pct
    rw [if_neg (not_le.mpr h)]
  · intro original current
    unfold _compute_discount_pct
    split
    · exact le_refl 0
    · unfold pyRound1
      apply div_nonneg _ (by norm_num)
      have : (0 : ℚ) ≤ 10 * max (((original - current) / original) * 100) 0 := by
        positivity
      exact_mod_cast Int.cast_nonneg.mpr (roundHalfToEven_nonneg _ this)
  · unfold _compute_discount_pct
    rw [if_neg (by norm_num)]
    have hmax : max (((400 - 280 : ℚ) / 400) * 100) 0 = 30 := by norm_num
    rw [hmax]
    unfold pyRound1
    have h10 : (10 : ℚ) * 30 = 300 := by norm_num
    rw [h10, hr300]
    norm_num
  · unfold _compute_discount_pct
    rw [if_neg (by norm_num)]
    have hmax : max (((100 - 150 : ℚ) / 100) * 100) 0 = 0 := by norm_num
    rw [hmax]
    unfold pyRound1
    have h10 : (10 : ℚ) * 0 = 0 := by norm_num
    rw [h10, hr0]
    norm_num

/-- Witness for `discount_pct_formula`: the conditional conjuncts
applied at concrete inputs. -/
theorem discount_pct_formula_witness :
    _compute_discount_pct 0 5 = 0 ∧
    _compute_discount_pct 400 280 =
      pyRound1 (max (((400 - 280 : ℚ) / 400) * 100) 0) :=
  ⟨discount_pct_formula.1 0 5 le_rfl,
    discount_pct_formula.2.1 400 280 (by norm_num)⟩

/-! ## Scrape cycle control (backend/src/scraper/scraper.py)

`BaseScraper.scrape` does network and rendering effects; its control
flow is embedded as a state machine over the scraper's mutable state,
with the outside world (the monotonic clock, robots.txt, the retried
page fetch, the Playwright fallback and the parser) supplied as an
environment. The per-request pacing timestamp `_last_request_time` and
the sleeps are not observed by any claim and are omitted. -/

/-- Mutable scraper state set up by `BaseScraper.__init__`:
`_last_scrape_time = 0.0`, robots policy not yet checked.
`robots_allowed` caches the `can_fetch` verdict once checked; before
the check the cached branch would read `_robots_parser is not None`,
i.e. `false`. -/
structure ScraperState where
  last_scrape_time : ℚ
  robots_checked : Bool
  robots_allowed : Bool
deriving DecidableEq, Repr

/-- `BaseScraper.__init__`. -/
def initState : ScraperState :=
  { last_scrape_time := 0, robots_checked := false, robots_allowed := false }

/-- The outside world during one `scrape` call. -/
structure ScrapeEnv where
  /-- `time.monotonic()` at the cycle-throttle check. -/
  now : ℚ
  /-- `time.monotonic()` when the scrape completes. -/
  nowAfter : ℚ
  /-- `settings.scrape_interval_minutes * 60`. -/
  interval_seconds : ℚ
  /-- `some v`: robots.txt answered 200 and `can_fetch` returns `v`;
  `none`: non-200 or `httpx.HTTPError` (treated as allowed). -/
  robots_fetch : Option Bool
  /-- `some html`: one of the 3 fetch attempts succeeded; `none`: the
  retry loop exhausted and `_fetch_html` raises `RuntimeError`. -/
  fetch_html : Option String
  /-- `some html`: the Playwright fallback produced a page; `none`: it
  raised `RuntimeError`. -/
  playwright_html : Option String
  /-- `parse_products`. -/
  parse : String → List ProductSnapshot

/-- `BaseScraper._check_robots_txt`: cached after the first call;
fetch failure or absence of a policy is treated as allowed. -/
def _check_robots_txt (env : ScrapeEnv) (st : ScraperState) :
    Bool × ScraperState :=
  if st.robots_checked then (st.robots_allowed, st)
  else
    match env.robots_fetch with
    | some allowed =>
        (allowed, { st with robots_checked := true, robots_allowed := allowed })
    | none =>
        (true, { st with robots_checked := true, robots_allowed := true })

/-- The two `RuntimeError`s `scrape` can propagate. -/
inductive ScrapeError where
  | fetchFailed
  | renderFailed
deriving DecidableEq, Repr

/-- The cycle-throttle condition of `scrape`:
`self._last_scrape_time > 0 and elapsed_since_last < interval`. -/
def throttleHit (env : ScrapeEnv) (st : ScraperState) : Prop :=
  0 < st.last_scrape_time ∧
    env.now - st.last_scrape_time < env.interval_seconds

instance (env : ScrapeEnv) (st : ScraperState) :
    Decidable (throttleHit env st) := by
  unfold throttleHit
  infer_instance

/-- `BaseScraper.scrape`: throttle check, robots check, retried fetch,
parse, Playwright fallback; `_last_scrape_time` is set only on the
successful completion path. -/
def scrape (env : ScrapeEnv) (st : ScraperState) :
    Except ScrapeError (List ProductSnapshot) × ScraperState :=
  if throttleHit env st then (Except.ok [], st)
  else
    let rc := _check_robots_txt env st
    if rc.1 = false then (Except.ok [], rc.2)
    else
      match env.fetch_html with
      | none => (Except.error ScrapeError.fetchFailed, rc.2)
      | some html =>
          if env.parse html = [] then
            match env.playwright_html with
            | none => (Except.error ScrapeError.renderFailed, rc.2)
            | some html2 =>
                (Except.ok (env.parse html2),
                  { rc.2 with last_scrape_time := env.nowAfter })
          else
            (Except.ok (env.parse html),
              { rc.2 with last_scrape_time := env.nowAfter })

theorem check_robots_preserves_time (env : ScrapeEnv) (st : ScraperState) :
    (_check_robots_txt env st).2.last_scrape_time = st.last_scrape_time := by
  unfold _check_robots_txt
  by_cases h : st.robots_checked = true
  · rw [if_pos h]
  · rw [if_neg h]
    cases env.robots_fetch <;> rfl

/-- An environment in which robots.txt allows scraping but all three
fetch attempts fail and the Playwright fallback also fails. -/
def failEnv : ScrapeEnv :=
  { now := 0, nowAfter := 1, interval_seconds := 600,
    robots_fetch := some true, fetch_html := none,
    playwright_html := none, parse := fun _ => [] }

/-- A state whose last completed scrape was 1 second before `now = 5`
(inside the 600-second interval). -/
def recentState : ScraperState :=
  { last_scrape_time := 4, robots_checked := false, robots_allowed := false }

/-- `failEnv` at `now = 5`, so `recentState` is throttled. -/
def throttleEnv : ScrapeEnv := { failEnv with now := 5 }

theorem scrape_failEnv_init :
    scrape failEnv initState = (Except.error ScrapeError.fetchFailed,
      { last_scrape_time := 0, robots_checked := true,
        robots_allowed := true }) := by
  unfold scrape
  rw [if_neg (by simp [throttleHit, initState])]
  have hrc : _check_robots_txt failEnv initState =
      (true, { last_scrape_time := 0, robots_checked := true,
               robots_allowed := true }) := by
    unfold _check_robots_txt
    rw [if_neg (by simp [initState])]
    rfl
  simp only [hrc]
  rfl

/-- C2 counterexample: `scrape` does not always return a list. In an
environment where robots.txt allows the fetch but the 3-attempt retry
loop exhausts, `scrape` propagates the `RuntimeError` instead of
returning an empty list. -/
theorem scrape_raises_counterexample :
    ¬ (∀ (env : ScrapeEnv) (st : ScraperState),
        ∃ products, (scrape env st).1 = Except.ok products) := by
  intro h
  obtain ⟨products, hp⟩ := h failEnv initState
  rw [scrape_failEnv_init] at hp
  simp at hp

/-- C2 (amended): `scrape` returns an empty list when skipped — cycle
throttle or robots disallow — but retry exhaustion on the page fetch
and rendering-fallback failure propagate an error to the caller (the
scheduler catches it per locale): every error return comes from one of
exactly those two situations. -/
theorem scrape_skip_and_error_conditions :
    ∀ (env : ScrapeEnv) (st : ScraperState),
      (throttleHit env st → scrape env st = (Except.ok [], st)) ∧
      ((_check_robots_txt env st).1 = false → ¬ throttleHit env st →
        scrape env st = (Except.ok [], (_check_robots_txt env st).2)) ∧
      (∀ e, (scrape env st).1 = Except.error e →
        (env.fetch_html = none ∧ e = ScrapeError.fetchFailed) ∨
        (∃ html, env.fetch_html = some html ∧ env.parse html = [] ∧
          env.playwright_html = none ∧ e = ScrapeError.renderFailed)) := by
  intro env st
  refine ⟨?_, ?_, ?_⟩
  · intro h
    unfold scrape
    rw [if_pos h]
  · intro hr hth
    unfold scrape
    rw [if_neg hth]
    dsimp only
    rw [if_pos hr]
  · intro e he
    by_cases hth : throttleHit env st
    · unfold scrape at he
      rw [if_pos hth] at he
      simp at he
    · unfold scrape at he
      rw [if_neg hth] at he
      dsimp only at he
      by_cases hr : (_check_robots_txt env st).1 = false
      · rw [if_pos hr] at he
        simp at he
      · rw [if_neg hr] at he
        cases hf : env.fetch_html with
        | none =>
            rw [hf] at he
            simp only [Except.error.injEq] at he
            exact Or.inl ⟨rfl, he.symm⟩
        | some html =>
            rw [hf] at he
            dsimp only at he
            by_cases hp : env.parse html = []
            · rw [if_pos hp] at he
              cases hpw : env.playwright_html with
              | none =>
                  rw [hpw] at he
                  simp only [Except.error.injEq] at he
                  exact Or.inr ⟨html, rfl, hp, rfl, he.symm⟩
              | some html2 =>
                  rw [hpw] at he
                  simp at he
            · rw [if_neg hp] at he
              simp at he

/-- Witness for `scrape_skip_and_error_conditions`: a throttled call
returns empty with the state untouched, and the all-fetches-fail
environment yields the fetch-exhaustion error. -/
theorem scrape_skip_and_error_conditions_witness :
    scrape throttleEnv recentState = (Except.ok [], recentState) ∧
    ((failEnv.fetch_html = none ∧
        ScrapeError.fetchFailed = ScrapeError.fetchFailed) ∨
      (∃ html, failEnv.fetch_html = some html ∧ failEnv.parse html = [] ∧
        failEnv.playwright_html = none ∧
        ScrapeError.fetchFailed = ScrapeError.renderFailed)) := by
  constructor
  · exact (scrape_skip_and_error_conditions throttleEnv recentState).1
      (by constructor <;> norm_num [throttleEnv, recentState, failEnv])
  · exact (scrape_skip_and_error_conditions failEnv initState).2.2
      ScrapeError.fetchFailed (by rw [scrape_failEnv_init])

/-- C10: the cycle-throttle timestamp `_last_scrape_time` changes only
when a scrape completes the full fetch-and-parse pipeline: a throttled
call, a robots-disallowed call and a call that propagates a fetch or
rendering error all leave it unchanged (so they never start or extend a
throttle window); a fresh scraper (timestamp 0) is never throttled; and
a successful non-skipped run sets the timestamp to the completion
time. -/
theorem scrape_timestamp_frame :
    ∀ (env : ScrapeEnv) (st : ScraperState),
      (throttleHit env st →
        (scrape env st).2.last_scrape_time = st.last_scrape_time) ∧
      ((_check_robots_txt env st).1 = false →
        (scrape env st).2.last_scrape_time = st.last_scrape_time) ∧
      (∀ e, (scrape env st).1 = Except.error e →
        (scrape env st).2.last_scrape_time = st.last_scrape_time) ∧
      (st.last_scrape_time = 0 → ¬ throttleHit env st) ∧
      (∀ products, ¬ throttleHit env st →
        (_check_robots_txt env st).1 = true →
        (scrape env st).1 = Except.ok products →
        (scrape env st).2.last_scrape_time = env.nowAfter) := by
  intro env st
  refine ⟨?_, ?_, ?_, ?_, ?_⟩
  · intro h
    unfold scrape
    rw [if_pos h]
  · intro hr
    by_cases hth : throttleHit env st
    · unfold scrape
      rw [if_pos hth]
    · unfold scrape
      rw [if_neg hth]
      dsimp only
      rw [if_pos hr]
      exact check_robots_preserves_time env st
  · intro e he
    by_cases hth : throttleHit env st
    · unfold scrape at he
      rw [if_pos hth] at he
      simp at he
    · by_cases hr : (_check_robots_txt env st).1 = false
      · unfold scrape at he
        rw [if_neg hth] at he
        dsimp only at he
        rw [if_pos hr] at he
        simp at he
      · cases hf : env.fetch_html with
        | none =>
            unfold scrape
            rw [if_neg hth]
            dsimp only
            rw [if_neg hr, hf]
            exact check_robots_preserves_time env st
        | some html =>
            unfold scrape at he ⊢
            rw [if_neg hth] at he ⊢
            dsimp only at he ⊢
            rw [if_neg hr, hf] at he ⊢
            dsimp only at he ⊢
            by_cases hp : env.parse html = []
            · rw [if_pos hp] at he ⊢
              cases hpw : env.playwright_html with
              | none => exact check_robots_preserves_time env st
              | some html2 =>
                  rw [hpw] at he
                  simp at he
            · rw [if_neg hp] at he
              simp at he
  · intro h0 hth
    exact absurd hth.1 (by rw [h0]; exact lt_irrefl 0)
  · intro products hth hr hok
    have hr2 : ¬ (_check_robots_txt env st).1 = false := by
      rw [hr]
      simp
    cases hf : env.fetch_html with
    | none =>
        unfold scrape at hok
        rw [if_neg hth] at hok
        dsimp only at hok
        rw [if_neg hr2, hf] at hok
        simp at hok
    | some html =>
        unfold scrape at hok ⊢
        rw [if_neg hth] at hok ⊢
        dsimp only at hok ⊢
        rw [if_neg hr2, hf] at hok ⊢
        dsimp only at hok ⊢
        by_cases hp : env.parse html = []
        · rw [if_pos hp] at hok ⊢
          cases hpw : env.playwright_html with
          | none =>
              rw [hpw] at hok
              simp at hok
          | some html2 => rfl
        · rw [if_neg hp]

/-- Witness for `scrape_timestamp_frame`: a throttled call leaves the
timestamp unchanged; the error run leaves it unchanged; the fresh state
is never throttled. -/
theorem scrape_timestamp_frame_witness :
    (scrape throttleEnv recentState).2.last_scrape_time =
      recentState.last_scrape_time ∧
    (scrape failEnv initState).2.last_scrape_time =
      initState.last_scrape_time ∧
    ¬ throttleHit failEnv initState := by
  refine ⟨?_, ?_, ?_⟩
  · exact (scrape_timestamp_frame throttleEnv recentState).1
      (by constructor <;> norm_num [throttleEnv, recentState, failEnv])
  · exact (scrape_timestamp_frame failEnv initState).2.2.1
      ScrapeError.fetchFailed (by rw [scrape_failEnv_init])
  · exact (scrape_timestamp_frame failEnv initState).2.2.2.1 rfl

end NorronaAlert
